import Mathlib

/-!
Verification development for the `max-osc-python` UDP OSC service node
(`src/max-osc-python.py`).  The Python source is shallowly embedded: the
`OscServer` mutable state becomes an explicit `ServerState` record, each
`msg_*` handler becomes a function from state and message to a new state
plus the list of datagrams it sends, raising Python code returns `Except`,
and the dispatch table set up in `OscServer.listen` becomes an association
list from address byte-strings to handler tags.  The OSC wire codec lives
in the external `txosc.osc` library, so it is modelled from the spec's
description of the wire format (§4.1).
-/

namespace MaxOsc

/-- Byte string of an ASCII Lean string literal (used for OSC addresses). -/
def strB (s : String) : List Nat :=
  s.toList.map Char.toNat

/-- A typed OSC argument value.  `intV` carries a signed 32-bit integer,
`floatV` carries the 32-bit IEEE-754 bit pattern of a float (the codec only
moves the four bytes, it never computes with the value), `strV` carries the
bytes of a string. -/
inductive Val where
  | intV (n : Int)
  | floatV (w : Nat)
  | strV (s : List Nat)
  deriving DecidableEq, Repr

/-- An OSC message: slash-delimited address pattern (as bytes) plus an
ordered list of typed arguments. -/
structure Message where
  address : List Nat
  args : List Val
  deriving DecidableEq, Repr

/-- A UDP peer, `(host, port)` as carried by txosc alongside each inbound
message; `send_host = address[0]` in the Python handlers. -/
structure Endpoint where
  host : String
  port : Nat
  deriving DecidableEq, Repr

/-- A record of one outbound `self._client_protocol.send(msg, (host, port))`
call. -/
structure Sent where
  msg : Message
  host : String
  port : Nat
  deriving DecidableEq, Repr

/-! ### Wire codec

Modelled from the spec: the binary OSC datagram layout implemented by the
external `txosc.osc` library (not in `src/`), per §4.1 — address pattern
string, then `,`-prefixed type tag string, then argument bytes in declared
order, each string NUL-terminated and padded to 4-byte alignment, ints and
floats big-endian 4-byte fields. -/

/-- Number of padding zero bytes after a chunk of `n` bytes to reach 4-byte
alignment. -/
def pad4 (n : Nat) : Nat := (4 - n % 4) % 4

/-- Modelled from the spec: OSC string encoding — the bytes, a terminating
NUL, then zero padding to a multiple of four bytes. -/
def encStr (s : List Nat) : List Nat :=
  s ++ [0] ++ List.replicate (pad4 (s.length + 1)) 0

/-- Big-endian 4-byte encoding of a 32-bit word. -/
def encInt32 (w : Nat) : List Nat :=
  [w / 2 ^ 24 % 256, w / 2 ^ 16 % 256, w / 2 ^ 8 % 256, w % 256]

/-- The 32-bit two's-complement word of a signed integer. -/
def toWord32 (n : Int) : Nat := (n % 2 ^ 32).toNat

/-- OSC type tag byte for an argument: `i` for int32, `f` for float32,
`s` for string. -/
def tagOf : Val → Nat
  | .intV _ => 105
  | .floatV _ => 102
  | .strV _ => 115

/-- Modelled from the spec: wire bytes of one argument. -/
def encVal : Val → List Nat
  | .intV n => encInt32 (toWord32 n)
  | .floatV w => encInt32 w
  | .strV s => encStr s

/-- Modelled from the spec: `encode(Message) -> bytes`, total for every
well-formed message — address string, comma-led type-tag string, then the
arguments' bytes in order. -/
def encode (m : Message) : List Nat :=
  encStr m.address ++ encStr (44 :: m.args.map tagOf) ++ (m.args.map encVal).flatten

/-- Split a byte list at its first NUL byte; `none` when no NUL occurs
(truncated string). -/
def splitAtZero : List Nat → Option (List Nat × List Nat)
  | [] => none
  | b :: rest =>
    if b = 0 then some ([], rest)
    else (splitAtZero rest).map (fun p => (b :: p.1, p.2))

/-- Modelled from the spec: decode one OSC string — read up to the NUL,
then skip the alignment padding. -/
def decStr (l : List Nat) : Option (List Nat × List Nat) :=
  match splitAtZero l with
  | none => none
  | some (s, r) => some (s, r.drop (pad4 (s.length + 1)))

/-- Decode a big-endian 4-byte word. -/
def decInt32 : List Nat → Option (Nat × List Nat)
  | b0 :: b1 :: b2 :: b3 :: rest =>
    some (b0 * 2 ^ 24 + b1 * 2 ^ 16 + b2 * 2 ^ 8 + b3, rest)
  | _ => none

/-- Signed value of a 32-bit two's-complement word. -/
def fromWord32 (w : Nat) : Int :=
  if w < 2 ^ 31 then (w : Int) else (w : Int) - 2 ^ 32

/-- Modelled from the spec: decode one argument according to its type tag. -/
def decVal (tag : Nat) (l : List Nat) : Option (Val × List Nat) :=
  if tag = 105 then
    (decInt32 l).map (fun p => (.intV (fromWord32 p.1), p.2))
  else if tag = 102 then
    (decInt32 l).map (fun p => (.floatV p.1, p.2))
  else if tag = 115 then
    (decStr l).map (fun p => (.strV p.1, p.2))
  else none

/-- Modelled from the spec: decode the argument list declared by a type-tag
list. -/
def decArgs : List Nat → List Nat → Option (List Val × List Nat)
  | [], rest => some ([], rest)
  | t :: ts, rest =>
    match decVal t rest with
    | none => none
    | some (v, rest₂) =>
      match decArgs ts rest₂ with
      | none => none
      | some (vs, rest₃) => some (v :: vs, rest₃)

/-- Modelled from the spec: `decode(bytes) -> Result<Message, DecodeError>`
(`none` is the `Malformed` outcome) — address string, type-tag string that
must begin with `,`, then the declared arguments, consuming the whole
datagram. -/
def decode (l : List Nat) : Option Message :=
  match decStr l with
  | none => none
  | some (addr, rest) =>
    match decStr rest with
    | none => none
    | some (tags, rest₂) =>
      match tags with
      | 44 :: ts =>
        match decArgs ts rest₂ with
        | some (vs, []) => some ⟨addr, vs⟩
        | _ => none
      | _ => none

/-- A wire-well-formed byte: nonzero (strings are NUL-terminated) and below
256. -/
def wfByte (b : Nat) : Prop := 0 < b ∧ b < 256

instance (b : Nat) : Decidable (wfByte b) := by
  unfold wfByte; infer_instance

/-- Well-formed argument: int32 in range, float word 32 bits, string of
wire-well-formed bytes. -/
def wfVal : Val → Prop
  | .intV n => -(2 ^ 31) ≤ n ∧ n < 2 ^ 31
  | .floatV w => w < 2 ^ 32
  | .strV s => ∀ b ∈ s, wfByte b

instance (v : Val) : Decidable (wfVal v) := by
  cases v <;> (unfold wfVal; infer_instance)

/-- Well-formed message: address bytes and every argument well-formed. -/
def wfMessage (m : Message) : Prop :=
  (∀ b ∈ m.address, wfByte b) ∧ ∀ v ∈ m.args, wfVal v

instance (m : Message) : Decidable (wfMessage m) := by
  unfold wfMessage; infer_instance

/-! ### Server state and handlers

Embedding of `OscServer` (`src/max-osc-python.py`).  The instance fields
`_ping_count`, `_xfreq`, `_yfreq`, `_xphase`, `_yphase` and the configured
`send_portnum` become record fields; the Twisted reactor's liveness (the
receive loop being active) becomes the `running` flag. -/

/-- Default UDP send port: `PYTHON_NODE_SEND_PORT = 12000`. -/
def PYTHON_NODE_SEND_PORT : Nat := 12000

/-- Default UDP receive port: `PYTHON_NODE_RECV_PORT = 12001`. -/
def PYTHON_NODE_RECV_PORT : Nat := 12001

/-- The mutable state of one `OscServer`.  The frequency parameters start
as Python ints and may be overwritten with whatever value a `/xfreq` or
`/yfreq` message carries, so they have the OSC value type; the phase fields
are Python floats (`floatV 0` is the bit pattern of `0.0`). -/
structure ServerState where
  ping_count : Nat
  xfreq : Val
  yfreq : Val
  xphase : Val
  yphase : Val
  send_portnum : Nat
  running : Bool
  deriving DecidableEq, Repr

/-- `OscServer._reset_parameters`: restore the default generator
parameters. -/
def resetParameters (st : ServerState) : ServerState :=
  { st with xfreq := .intV 25, yfreq := .intV 25,
            xphase := .floatV 0, yphase := .floatV 0 }

/-- `OscServer.__init__` followed by `listen` and `reactor.run()`: ping
counter zero, parameters at defaults, default send port, receive loop
active. -/
def initState : ServerState :=
  resetParameters
    { ping_count := 0, xfreq := .intV 25, yfreq := .intV 25,
      xphase := .floatV 0, yphase := .floatV 0,
      send_portnum := PYTHON_NODE_SEND_PORT, running := true }

/-- A Python exception escaping a handler. -/
inductive PyErr where
  | indexError
  | sourceUnavailable
  deriving DecidableEq, Repr

/-- Outcome of one sensor fetch (`requests.get(...)` plus JSON indexing in
`msg_nextframe`): the three channel readings `accX, accY, accZ`, or a
raised exception. -/
def FetchOutcome := Except Unit (Val × Val × Val)

/-- `OscServer.msg_fallback`: log the unmatched message, mutate nothing,
send nothing. -/
def msg_fallback (st : ServerState) (_m : Message) (_sender : Endpoint) :
    Except PyErr (ServerState × List Sent) :=
  .ok (st, [])

/-- `OscServer.msg_reset`: call `_reset_parameters`. -/
def msg_reset (st : ServerState) (_m : Message) (_sender : Endpoint) :
    Except PyErr (ServerState × List Sent) :=
  .ok (resetParameters st, [])

/-- `OscServer.msg_quit`: `self._reactor.stop()` — the receive loop
terminates. -/
def msg_quit (st : ServerState) (_m : Message) (_sender : Endpoint) :
    Except PyErr (ServerState × List Sent) :=
  .ok ({ st with running := false }, [])

/-- The `/pong` reply message built in `msg_ping`. -/
def pongMsg (c : Nat) : Message :=
  ⟨strB "/pong", [.intV (c : Int)]⟩

/-- `OscServer.msg_ping`: increment `_ping_count` and reply
`/pong <count>` to the sender's host on the configured send port. -/
def msg_ping (st : ServerState) (_m : Message) (sender : Endpoint) :
    Except PyErr (ServerState × List Sent) :=
  .ok ({ st with ping_count := st.ping_count + 1 },
       [⟨pongMsg (st.ping_count + 1), sender.host, st.send_portnum⟩])

/-- `OscServer.msg_xfreq`: `self._xfreq = message.getValues()[0]`; indexing
an empty argument list raises `IndexError`. -/
def msg_xfreq (st : ServerState) (m : Message) (_sender : Endpoint) :
    Except PyErr (ServerState × List Sent) :=
  match m.args with
  | [] => .error .indexError
  | v :: _ => .ok ({ st with xfreq := v }, [])

/-- `OscServer.msg_yfreq`: `self._yfreq = message.getValues()[0]`. -/
def msg_yfreq (st : ServerState) (m : Message) (_sender : Endpoint) :
    Except PyErr (ServerState × List Sent) :=
  match m.args with
  | [] => .error .indexError
  | v :: _ => .ok ({ st with yfreq := v }, [])

/-- The `/trajectory` reply built in `msg_nextframe`: `cols = 10`,
`rows = 2`, then `trajectory.flat` row-major — row 0 is `accY` replicated
across all 10 columns, row 1 is `accZ` replicated across all 10 columns
(`trajectory[0,:] = accY; trajectory[1,:] = accZ`). -/
def trajectoryMsg (accY accZ : Val) : Message :=
  ⟨strB "/trajectory",
   .intV 10 :: .intV 2 :: (List.replicate 10 accY ++ List.replicate 10 accZ)⟩

/-- `OscServer.msg_nextframe`: fetch the three sensor channels (a raising
fetch propagates), fill the 2×10 trajectory buffer from `accY` and `accZ`,
and reply `/trajectory` to the sender's host on the configured send port. -/
def msg_nextframe (fetch : FetchOutcome) (st : ServerState) (_m : Message)
    (sender : Endpoint) : Except PyErr (ServerState × List Sent) :=
  match fetch with
  | .error _ => .error .sourceUnavailable
  | .ok (_accX, accY, accZ) =>
    .ok (st, [⟨trajectoryMsg accY accZ, sender.host, st.send_portnum⟩])

/-! ### Dispatch

Embedding of the handler table built in `OscServer.listen` via
`receiver.addCallback` plus the fallback assignment, and of the txosc
receiver's address lookup (exact string match for these patterns). -/

/-- Identifies which registered callback the dispatcher invokes. -/
inductive HandlerTag where
  | reset | quit | ping | xfreq | yfreq | nextframe | fallback
  deriving DecidableEq, Repr

/-- The registrations performed in `OscServer.listen`, in source order. -/
def registrations : List (List Nat × HandlerTag) :=
  [(strB "/reset", .reset), (strB "/quit", .quit), (strB "/ping", .ping),
   (strB "/xfreq", .xfreq), (strB "/yfreq", .yfreq),
   (strB "/nextframe", .nextframe)]

/-- Address lookup: the handler registered for the exact address, else the
fallback (`receiver.fallback = self.msg_fallback`). -/
def route (addr : List Nat) : HandlerTag :=
  (registrations.lookup addr).getD .fallback

/-- Run the handler a tag names. -/
def runHandler (tag : HandlerTag) (fetch : FetchOutcome) (st : ServerState)
    (m : Message) (sender : Endpoint) : Except PyErr (ServerState × List Sent) :=
  match tag with
  | .reset => msg_reset st m sender
  | .quit => msg_quit st m sender
  | .ping => msg_ping st m sender
  | .xfreq => msg_xfreq st m sender
  | .yfreq => msg_yfreq st m sender
  | .nextframe => msg_nextframe fetch st m sender
  | .fallback => msg_fallback st m sender

/-- One dispatch: route the address and run that handler. -/
def dispatch (fetch : FetchOutcome) (st : ServerState) (m : Message)
    (sender : Endpoint) : Except PyErr (ServerState × List Sent) :=
  runHandler (route m.address) fetch st m sender

/-- Modelled from the spec: the dispatch boundary (the Twisted reactor
around `datagramReceived`, not in `src/`) catches a raising handler, logs
it, and the receive loop continues with the state as the handler left it —
here every raise happens before any state mutation, so the prior state. -/
def dispatchCaught (fetch : FetchOutcome) (st : ServerState) (m : Message)
    (sender : Endpoint) : ServerState × List Sent :=
  match dispatch fetch st m sender with
  | .ok r => r
  | .error _ => (st, [])

/-- One inbound event for the receive loop: the decoded message, its
sender, and the outcome the sensor fetch would have if this event triggers
one. -/
structure LoopEvent where
  msg : Message
  sender : Endpoint
  fetch : FetchOutcome

/-- One receive-loop iteration: a datagram arriving while the loop runs is
dispatched; after the reactor has stopped nothing is processed. -/
def processEvent (st : ServerState) (e : LoopEvent) : ServerState × List Sent :=
  if st.running then dispatchCaught e.fetch st e.msg e.sender
  else (st, [])

/-- The receive loop over a sequence of inbound events, in arrival order,
collecting all outbound sends. -/
def processEvents (st : ServerState) : List LoopEvent → ServerState × List Sent
  | [] => (st, [])
  | e :: es =>
    let r := processEvent st e
    let r₂ := processEvents r.1 es
    (r₂.1, r.2 ++ r₂.2)

/-! ### Helper lemmas -/

theorem route_reset : route (strB "/reset") = .reset := by decide

theorem route_quit : route (strB "/quit") = .quit := by decide

theorem route_ping : route (strB "/ping") = .ping := by decide

theorem route_xfreq : route (strB "/xfreq") = .xfreq := by decide

theorem route_yfreq : route (strB "/yfreq") = .yfreq := by decide

theorem route_nextframe : route (strB "/nextframe") = .nextframe := by decide

/-- A receive-loop sequence starting from a stopped server processes
nothing. -/
theorem processEvents_stopped (st : ServerState) (es : List LoopEvent)
    (h : st.running = false) : processEvents st es = (st, []) := by
  induction es with
  | nil => rfl
  | cons e es ih =>
    simp [processEvents, processEvent, h, ih]

/-! ### Claims about dispatch and the parameter store -/

/-- Claim C4: every message whose address is one of the registered patterns
is dispatched to exactly the handler registered for that pattern (lookup is
exact-string match), and never to the fallback handler. -/
theorem claim_C4 (addr : List Nat) (tag : HandlerTag)
    (h : (addr, tag) ∈ registrations) :
    route addr = tag ∧ tag ≠ .fallback ∧
      ∀ (fetch : FetchOutcome) (st : ServerState) (args : List Val)
        (sender : Endpoint),
        dispatch fetch st ⟨addr, args⟩ sender =
          runHandler tag fetch st ⟨addr, args⟩ sender := by
  simp only [registrations, List.mem_cons, List.not_mem_nil, or_false,
    Prod.mk.injEq] at h
  rcases h with ⟨rfl, rfl⟩ | ⟨rfl, rfl⟩ | ⟨rfl, rfl⟩ | ⟨rfl, rfl⟩ |
    ⟨rfl, rfl⟩ | ⟨rfl, rfl⟩ <;>
    refine ⟨by decide, by decide, fun fetch st args sender => ?_⟩ <;>
    simp [dispatch, route_reset, route_quit, route_ping, route_xfreq,
      route_yfreq, route_nextframe]

/-- Witness for C4 at the registered pattern `/ping`. -/
theorem claim_C4_witness :
    route (strB "/ping") = .ping ∧ HandlerTag.ping ≠ .fallback ∧
      ∀ (fetch : FetchOutcome) (st : ServerState) (args : List Val)
        (sender : Endpoint),
        dispatch fetch st ⟨strB "/ping", args⟩ sender =
          runHandler .ping fetch st ⟨strB "/ping", args⟩ sender :=
  claim_C4 (strB "/ping") .ping (by decide)

/-- Claim C5: a message whose address is not registered goes to the
fallback handler, which is invoked exactly once (dispatch runs the single
routed handler), sends no reply, and leaves the whole server state — in
particular `xfreq`, `yfreq`, `xphase`, `yphase` — unchanged. -/
theorem claim_C5 (addr : List Nat)
    (h : addr ∉ registrations.map Prod.fst) :
    route addr = .fallback ∧
      ∀ (fetch : FetchOutcome) (st : ServerState) (args : List Val)
        (sender : Endpoint),
        dispatchCaught fetch st ⟨addr, args⟩ sender = (st, []) ∧
        msg_fallback st ⟨addr, args⟩ sender = .ok (st, []) := by
  simp only [registrations, List.map_cons, List.map_nil, List.mem_cons,
    List.not_mem_nil, or_false, not_or] at h
  obtain ⟨h1, h2, h3, h4, h5, h6⟩ := h
  have hroute : route addr = .fallback := by
    have b1 := beq_eq_false_iff_ne.mpr h1
    have b2 := beq_eq_false_iff_ne.mpr h2
    have b3 := beq_eq_false_iff_ne.mpr h3
    have b4 := beq_eq_false_iff_ne.mpr h4
    have b5 := beq_eq_false_iff_ne.mpr h5
    have b6 := beq_eq_false_iff_ne.mpr h6
    simp [route, registrations, List.lookup, b1, b2, b3, b4, b5, b6]
  refine ⟨hroute, fun fetch st args sender => ⟨?_, rfl⟩⟩
  simp [dispatchCaught, dispatch, hroute, runHandler, msg_fallback]

/-- Witness for C5 at the unregistered address `/bogus`. -/
theorem claim_C5_witness :
    route (strB "/bogus") = .fallback ∧
      ∀ (fetch : FetchOutcome) (st : ServerState) (args : List Val)
        (sender : Endpoint),
        dispatchCaught fetch st ⟨strB "/bogus", args⟩ sender = (st, []) ∧
        msg_fallback st ⟨strB "/bogus", args⟩ sender = .ok (st, []) :=
  claim_C5 (strB "/bogus") (by decide)

/-- Claim C6: processing `/reset` restores `xfreq = 25`, `yfreq = 25` and
both phase fields to `0.0`, is idempotent, and its result does not depend
on the prior mutation history. -/
theorem claim_C6 (fetch : FetchOutcome) (st : ServerState) (args : List Val)
    (sender : Endpoint) :
    dispatchCaught fetch st ⟨strB "/reset", args⟩ sender =
      (resetParameters st, []) ∧
    (resetParameters st).xfreq = .intV 25 ∧
    (resetParameters st).yfreq = .intV 25 ∧
    (resetParameters st).xphase = .floatV 0 ∧
    (resetParameters st).yphase = .floatV 0 ∧
    resetParameters (resetParameters st) = resetParameters st ∧
    ∀ st₂ : ServerState,
      (resetParameters st).xfreq = (resetParameters st₂).xfreq ∧
      (resetParameters st).yfreq = (resetParameters st₂).yfreq ∧
      (resetParameters st).xphase = (resetParameters st₂).xphase ∧
      (resetParameters st).yphase = (resetParameters st₂).yphase := by
  refine ⟨?_, rfl, rfl, rfl, rfl, rfl, fun st₂ => ⟨rfl, rfl, rfl, rfl⟩⟩
  simp [dispatchCaught, dispatch, route_reset, runHandler, msg_reset]

/-- Claim C7: `/quit` stops the receive loop (the terminal `Stopped`
state); a stopped server processes no further datagram and never leaves
the stopped state. -/
theorem claim_C7 :
    (∀ (fetch : FetchOutcome) (st : ServerState) (args : List Val)
       (sender : Endpoint),
       dispatchCaught fetch st ⟨strB "/quit", args⟩ sender =
         ({ st with running := false }, [])) ∧
    (∀ (st : ServerState) (es : List LoopEvent), st.running = false →
       processEvents st es = (st, [])) ∧
    (∀ (st : ServerState) (e : LoopEvent), st.running = false →
       processEvent st e = (st, [])) := by
  refine ⟨fun fetch st args sender => ?_, processEvents_stopped,
    fun st e h => ?_⟩
  · simp [dispatchCaught, dispatch, route_quit, runHandler, msg_quit]
  · simp [processEvent, h]

/-- Witness for C7: quitting from the initial state stops the loop, and a
stopped server ignores a subsequent `/ping`. -/
theorem claim_C7_witness :
    dispatchCaught (.error ()) initState ⟨strB "/quit", []⟩ ⟨"max", 7⟩ =
      ({ initState with running := false }, []) ∧
    processEvents { initState with running := false }
      [⟨⟨strB "/ping", []⟩, ⟨"max", 7⟩, .error ()⟩] =
      ({ initState with running := false }, []) :=
  ⟨claim_C7.1 (.error ()) initState [] ⟨"max", 7⟩,
   claim_C7.2.1 { initState with running := false } _ rfl⟩

/-- Claim C9: `/reset` leaves the ping counter unchanged — only the four
generator parameters are restored — the counter is zero only at
construction, and the strictly increasing `/pong` values survive a reset
in between. -/
theorem claim_C9 :
    (∀ st : ServerState, (resetParameters st).ping_count = st.ping_count) ∧
    (∀ (fetch : FetchOutcome) (st : ServerState) (args : List Val)
       (sender : Endpoint),
       (dispatchCaught fetch st ⟨strB "/reset", args⟩ sender).1.ping_count =
         st.ping_count) ∧
    initState.ping_count = 0 ∧
    ∀ s₁ s₂ s₃ : Endpoint,
      processEvents initState
        [⟨⟨strB "/ping", []⟩, s₁, .error ()⟩,
         ⟨⟨strB "/reset", []⟩, s₃, .error ()⟩,
         ⟨⟨strB "/ping", []⟩, s₂, .error ()⟩] =
        (resetParameters { initState with ping_count := 2 },
         [⟨pongMsg 1, s₁.host, PYTHON_NODE_SEND_PORT⟩,
          ⟨pongMsg 2, s₂.host, PYTHON_NODE_SEND_PORT⟩]) := by
  refine ⟨fun st => rfl, fun fetch st args sender => ?_, rfl,
    fun s₁ s₂ s₃ => ?_⟩
  · simp [dispatchCaught, dispatch, route_reset, runHandler, msg_reset,
      resetParameters]
  · simp [processEvents, processEvent, dispatchCaught, dispatch, route_ping,
      route_reset, runHandler, msg_ping, msg_reset, initState,
      resetParameters, PYTHON_NODE_SEND_PORT]

/-- Claim C10: `/xfreq` and `/yfreq` with at least one argument store the
first argument unvalidated into the corresponding parameter; with zero
arguments the handler's `getValues()[0]` raises `IndexError`, so the
parameter is left unchanged by that message. -/
theorem claim_C10 :
    (∀ (st : ServerState) (addr : List Nat) (v : Val) (rest : List Val)
       (sender : Endpoint),
       msg_xfreq st ⟨addr, v :: rest⟩ sender =
         .ok ({ st with xfreq := v }, []) ∧
       msg_yfreq st ⟨addr, v :: rest⟩ sender =
         .ok ({ st with yfreq := v }, [])) ∧
    (∀ (st : ServerState) (addr : List Nat) (sender : Endpoint),
       msg_xfreq st ⟨addr, []⟩ sender = .error .indexError ∧
       msg_yfreq st ⟨addr, []⟩ sender = .error .indexError) ∧
    (∀ (fetch : FetchOutcome) (st : ServerState) (v : Val) (rest : List Val)
       (sender : Endpoint),
       dispatchCaught fetch st ⟨strB "/xfreq", v :: rest⟩ sender =
         ({ st with xfreq := v }, []) ∧
       dispatchCaught fetch st ⟨strB "/yfreq", v :: rest⟩ sender =
         ({ st with yfreq := v }, [])) ∧
    ∀ (fetch : FetchOutcome) (st : ServerState) (sender : Endpoint),
      dispatchCaught fetch st ⟨strB "/xfreq", []⟩ sender = (st, []) ∧
      dispatchCaught fetch st ⟨strB "/yfreq", []⟩ sender = (st, []) := by
  refine ⟨fun st addr v rest sender => ⟨rfl, rfl⟩,
    fun st addr sender => ⟨rfl, rfl⟩,
    fun fetch st v rest sender => ⟨?_, ?_⟩,
    fun fetch st sender => ⟨?_, ?_⟩⟩ <;>
  simp [dispatchCaught, dispatch, route_xfreq, route_yfreq, runHandler,
    msg_xfreq, msg_yfreq]

/-! ### Claims about /nextframe, /ping and the error boundary -/

/-- The SensorSource stub of the spec's scenario: `accX = 1.0`,
`accY = 2.0`, `accZ = 3.0` as IEEE-754 single-precision bit patterns. -/
def stubFetch : FetchOutcome :=
  .ok (.floatV 1065353216, .floatV 1073741824, .floatV 1077936128)

/-- Claim C1: `/nextframe` with the stub SensorSource builds the 2×10
trajectory buffer — row 0 is the `accY` reading (2.0) in all 10 columns,
row 1 is the `accZ` reading (3.0) in all 10 columns — and replies
`/trajectory` with arguments `cols = 10`, `rows = 2` followed by the 20
row-major samples, to the sender's host on the configured send port
(12000 in the initial state). -/
theorem claim_C1 (st : ServerState) (args : List Val) (sender : Endpoint)
    (h : st.running = true) :
    processEvent st ⟨⟨strB "/nextframe", args⟩, sender, stubFetch⟩ =
      (st, [⟨trajectoryMsg (.floatV 1073741824) (.floatV 1077936128),
             sender.host, st.send_portnum⟩]) ∧
    (trajectoryMsg (.floatV 1073741824) (.floatV 1077936128)).args =
      .intV 10 :: .intV 2 ::
        (List.replicate 10 (.floatV 1073741824) ++
         List.replicate 10 (.floatV 1077936128)) ∧
    (trajectoryMsg (.floatV 1073741824) (.floatV 1077936128)).args.length
      = 22 ∧
    (trajectoryMsg (.floatV 1073741824) (.floatV 1077936128)).address =
      strB "/trajectory" ∧
    initState.send_portnum = 12000 := by
  refine ⟨?_, rfl, by decide, rfl, rfl⟩
  simp [processEvent, h, dispatchCaught, dispatch, route_nextframe,
    runHandler, msg_nextframe, stubFetch]

/-- Witness for C1 at the initial state. -/
theorem claim_C1_witness :
    initState.running = true ∧
    processEvent initState ⟨⟨strB "/nextframe", []⟩, ⟨"max", 7⟩, stubFetch⟩ =
      (initState,
       [⟨trajectoryMsg (.floatV 1073741824) (.floatV 1077936128),
         "max", 12000⟩]) :=
  ⟨rfl, (claim_C1 initState [] ⟨"max", 7⟩ rfl).1⟩

/-- The loop event of one inbound `/ping` datagram (its handler performs
no sensor fetch). -/
def pingEvent (sender : Endpoint) : LoopEvent :=
  ⟨⟨strB "/ping", []⟩, sender, .error ()⟩

/-- The `/pong` replies a run of `/ping` messages produces, starting from
counter value `c`, all on send port `p`. -/
def expectedPongs (c p : Nat) : List Endpoint → List Sent
  | [] => []
  | s :: rest => ⟨pongMsg (c + 1), s.host, p⟩ :: expectedPongs (c + 1) p rest

/-- One `/ping` event increments the counter and emits one `/pong`. -/
theorem processEvent_ping (st : ServerState) (sender : Endpoint)
    (h : st.running = true) :
    processEvent st (pingEvent sender) =
      ({ st with ping_count := st.ping_count + 1 },
       [⟨pongMsg (st.ping_count + 1), sender.host, st.send_portnum⟩]) := by
  simp [processEvent, h, dispatchCaught, dispatch, pingEvent, route_ping,
    runHandler, msg_ping]

/-- A run of `/ping` events, from any senders, increments the process-wide
counter once per ping and answers each with the next counter value. -/
theorem processEvents_pings (senders : List Endpoint) (st : ServerState)
    (h : st.running = true) :
    processEvents st (senders.map pingEvent) =
      ({ st with ping_count := st.ping_count + senders.length },
       expectedPongs st.ping_count st.send_portnum senders) := by
  induction senders generalizing st with
  | nil => simp [processEvents, expectedPongs]
  | cons s rest ih =>
    simp only [List.map_cons, processEvents, processEvent_ping st s h,
      expectedPongs, List.length_cons]
    rw [ih { st with ping_count := st.ping_count + 1 } h]
    have harith : st.ping_count + 1 + rest.length =
        st.ping_count + (rest.length + 1) := by omega
    simp [harith]

/-- The i-th reply of a `/ping` run carries counter value `c + i + 1`, to
the i-th sender's host. -/
theorem expectedPongs_getElem (senders : List Endpoint) (c p i : Nat) :
    (expectedPongs c p senders)[i]? =
      senders[i]?.map (fun s => ⟨pongMsg (c + i + 1), s.host, p⟩) := by
  induction senders generalizing c i with
  | nil => simp [expectedPongs]
  | cons s rest ih =>
    cases i with
    | zero => simp [expectedPongs]
    | succ j =>
      simp only [expectedPongs, List.getElem?_cons_succ, ih (c + 1) j]
      have : c + 1 + j + 1 = c + (j + 1) + 1 := by omega
      rw [this]

/-- Claim C2: for any run of `/ping` messages from any mix of senders, the
n-th ping increments the single process-wide counter to n (starting from
the state's current count) and is answered by `/pong` carrying that value,
sent to that sender's host on the configured send port; from the initial
state the first reply carries 1, the second 2, strictly increasing. -/
theorem claim_C2 (senders : List Endpoint) (st : ServerState)
    (h : st.running = true) :
    processEvents st (senders.map pingEvent) =
      ({ st with ping_count := st.ping_count + senders.length },
       expectedPongs st.ping_count st.send_portnum senders) ∧
    (∀ i : Nat,
       (expectedPongs st.ping_count st.send_portnum senders)[i]? =
         senders[i]?.map
           (fun s => ⟨pongMsg (st.ping_count + i + 1), s.host,
                      st.send_portnum⟩)) ∧
    initState.ping_count = 0 ∧ initState.send_portnum = 12000 :=
  ⟨processEvents_pings senders st h,
   fun i => expectedPongs_getElem senders st.ping_count st.send_portnum i,
   rfl, rfl⟩

/-- Witness for C2: two pings from the same sender, from the initial
state. -/
theorem claim_C2_witness :
    processEvents initState
        ([⟨"max", 7⟩, ⟨"max", 7⟩].map pingEvent) =
      ({ initState with ping_count := 2 },
       expectedPongs 0 12000 [⟨"max", 7⟩, ⟨"max", 7⟩]) ∧
    expectedPongs 0 12000 [⟨"max", 7⟩, ⟨"max", 7⟩] =
      [⟨pongMsg 1, "max", 12000⟩, ⟨pongMsg 2, "max", 12000⟩] :=
  ⟨(claim_C2 [⟨"max", 7⟩, ⟨"max", 7⟩] initState rfl).1, by decide⟩

/-- Claim C3: a handler failure is caught at the dispatch boundary — the
caught dispatch returns normally with the state intact — so a SensorSource
failure inside `/nextframe` never escapes the receive loop: the loop stays
running and processes the next datagram normally. -/
theorem claim_C3 :
    (∀ (fetch : FetchOutcome) (st : ServerState) (m : Message)
       (sender : Endpoint) (e : PyErr),
       dispatch fetch st m sender = .error e →
       dispatchCaught fetch st m sender = (st, [])) ∧
    (∀ (st : ServerState) (args : List Val) (sender : Endpoint),
       dispatch (.error ()) st ⟨strB "/nextframe", args⟩ sender =
         .error .sourceUnavailable) ∧
    ∀ (st : ServerState) (args : List Val) (sender sender₂ : Endpoint),
      st.running = true →
      processEvents st
          [⟨⟨strB "/nextframe", args⟩, sender, .error ()⟩,
           pingEvent sender₂] =
        ({ st with ping_count := st.ping_count + 1 },
         [⟨pongMsg (st.ping_count + 1), sender₂.host, st.send_portnum⟩]) := by
  refine ⟨fun fetch st m sender e he => ?_,
    fun st args sender => ?_, fun st args sender sender₂ h => ?_⟩
  · simp [dispatchCaught, he]
  · simp [dispatch, route_nextframe, runHandler, msg_nextframe]
  · simp [processEvents, processEvent, h, dispatchCaught, dispatch,
      route_nextframe, runHandler, msg_nextframe, pingEvent, route_ping,
      msg_ping]

/-- Witness for C3: a failing fetch during `/nextframe` at the initial
state is contained, and the following `/ping` is processed normally. -/
theorem claim_C3_witness :
    dispatchCaught (.error ()) initState ⟨strB "/nextframe", []⟩ ⟨"max", 7⟩ =
      (initState, []) ∧
    processEvents initState
        [⟨⟨strB "/nextframe", []⟩, ⟨"max", 7⟩, .error ()⟩,
         pingEvent ⟨"max", 7⟩] =
      ({ initState with ping_count := 1 },
       [⟨pongMsg 1, "max", 12000⟩]) :=
  ⟨claim_C3.1 (.error ()) initState ⟨strB "/nextframe", []⟩ ⟨"max", 7⟩
     .sourceUnavailable
     (claim_C3.2.1 initState [] ⟨"max", 7⟩),
   claim_C3.2.2 initState [] ⟨"max", 7⟩ ⟨"max", 7⟩ rfl⟩

/-! ### Wire codec round-trip (C8) -/

/-- Splitting at the first NUL recovers a NUL-free chunk exactly. -/
theorem splitAtZero_append (s r : List Nat) (h : ∀ b ∈ s, b ≠ 0) :
    splitAtZero (s ++ 0 :: r) = some (s, r) := by
  induction s with
  | nil => simp [splitAtZero]
  | cons b bs ih =>
    have hb : b ≠ 0 := h b (by simp)
    have hrec := ih (fun x hx => h x (by simp [hx]))
    simp [splitAtZero, hb, hrec]

/-- Decoding an encoded OSC string recovers the string and the trailing
bytes. -/
theorem decStr_encStr (s r : List Nat) (h : ∀ b ∈ s, b ≠ 0) :
    decStr (encStr s ++ r) = some (s, r) := by
  have hshape : encStr s ++ r =
      s ++ 0 :: (List.replicate (pad4 (s.length + 1)) 0 ++ r) := by
    simp [encStr]
  rw [hshape, decStr, splitAtZero_append s _ h]
  simp only [Option.some.injEq, Prod.mk.injEq, true_and]
  exact List.drop_left' (by simp)

/-- Decoding an encoded big-endian 32-bit word recovers the word. -/
theorem decInt32_encInt32 (w : Nat) (hw : w < 2 ^ 32) (r : List Nat) :
    decInt32 (encInt32 w ++ r) = some (w, r) := by
  simp only [encInt32, decInt32, List.cons_append, List.nil_append,
    Option.some.injEq, Prod.mk.injEq, and_true]
  have e24 : (2 : Nat) ^ 24 = 16777216 := by norm_num
  have e16 : (2 : Nat) ^ 16 = 65536 := by norm_num
  have e8 : (2 : Nat) ^ 8 = 256 := by norm_num
  have e32 : (2 : Nat) ^ 32 = 4294967296 := by norm_num
  rw [e24, e16, e8]
  rw [e32] at hw
  omega

/-- The two's-complement word of an in-range int is 32 bits. -/
theorem toWord32_lt (n : Int) : toWord32 n < 2 ^ 32 := by
  unfold toWord32
  have ei : (2 : Int) ^ 32 = 4294967296 := by norm_num
  have en : (2 : Nat) ^ 32 = 4294967296 := by norm_num
  rw [ei, en]
  omega

/-- Two's-complement round-trip for in-range 32-bit ints. -/
theorem fromWord32_toWord32 (n : Int) (h1 : -(2 ^ 31) ≤ n)
    (h2 : n < 2 ^ 31) : fromWord32 (toWord32 n) = n := by
  unfold fromWord32 toWord32
  have e31i : (2 : Int) ^ 31 = 2147483648 := by norm_num
  have e32i : (2 : Int) ^ 32 = 4294967296 := by norm_num
  have e31n : (2 : Nat) ^ 31 = 2147483648 := by norm_num
  rw [e31i] at h1 h2
  rw [e32i, e31n]
  split <;> omega

/-- Decoding one encoded argument, driven by its type tag, recovers the
argument. -/
theorem decVal_encVal (v : Val) (hv : wfVal v) (r : List Nat) :
    decVal (tagOf v) (encVal v ++ r) = some (v, r) := by
  cases v with
  | intV n =>
    obtain ⟨h1, h2⟩ := hv
    simp [tagOf, encVal, decVal,
      decInt32_encInt32 (toWord32 n) (toWord32_lt n) r,
      fromWord32_toWord32 n h1 h2]
  | floatV w =>
    simp [tagOf, encVal, decVal, decInt32_encInt32 w hv r]
  | strV s =>
    have hv' : ∀ b ∈ s, wfByte b := hv
    have hz : ∀ b ∈ s, b ≠ 0 := fun b hb => (hv' b hb).1.ne'
    simp [tagOf, encVal, decVal, decStr_encStr s r hz]

/-- Decoding the encoded argument block against its own tag list recovers
the argument list. -/
theorem decArgs_enc (vs : List Val) (hv : ∀ v ∈ vs, wfVal v) (r : List Nat) :
    decArgs (vs.map tagOf) ((vs.map encVal).flatten ++ r) = some (vs, r) := by
  induction vs generalizing r with
  | nil => simp [decArgs]
  | cons v rest ih =>
    have hvv : wfVal v := hv v (by simp)
    have hrest : ∀ x ∈ rest, wfVal x := fun x hx => hv x (by simp [hx])
    have hshape : ((v :: rest).map encVal).flatten ++ r =
        encVal v ++ ((rest.map encVal).flatten ++ r) := by
      simp
    rw [List.map_cons, hshape]
    simp only [decArgs, decVal_encVal v hvv, ih hrest r]

/-- A type tag byte is never NUL. -/
theorem tagOf_ne_zero (v : Val) : tagOf v ≠ 0 := by
  cases v <;> simp [tagOf]

/-- Claim C8: the wire codec round-trips — decoding the bytes encode
produces for any well-formed message (any mix of int, float and string
arguments) yields the message back; `encode` is a total function on
messages, so it never fails. -/
theorem claim_C8 (m : Message) (h : wfMessage m) :
    decode (encode m) = some m := by
  obtain ⟨haddr, hargs⟩ := h
  have haddrz : ∀ b ∈ m.address, b ≠ 0 := fun b hb => by
    have := haddr b hb
    unfold wfByte at this
    omega
  have htagz : ∀ b ∈ 44 :: m.args.map tagOf, b ≠ 0 := by
    intro b hb
    rcases List.mem_cons.mp hb with rfl | hb₂
    · omega
    · obtain ⟨v, _, rfl⟩ := List.mem_map.mp hb₂
      exact tagOf_ne_zero v
  have hshape : encode m =
      encStr m.address ++
        (encStr (44 :: m.args.map tagOf) ++ (m.args.map encVal).flatten) := by
    simp [encode]
  have hdec : decArgs (m.args.map tagOf) ((m.args.map encVal).flatten) =
      some (m.args, []) := by
    have h₀ := decArgs_enc m.args hargs []
    rwa [List.append_nil] at h₀
  rw [hshape]
  simp only [decode, decStr_encStr _ _ haddrz, decStr_encStr _ _ htagz,
    hdec]

/-- Witness for C8: a concrete message mixing int, float and string
arguments round-trips. -/
theorem claim_C8_witness :
    wfMessage ⟨strB "/xfreq",
      [.intV (-3), .floatV 1065353216, .strV (strB "hi")]⟩ ∧
    decode (encode ⟨strB "/xfreq",
      [.intV (-3), .floatV 1065353216, .strV (strB "hi")]⟩) =
      some ⟨strB "/xfreq",
        [.intV (-3), .floatV 1065353216, .strV (strB "hi")]⟩ :=
  ⟨by decide,
   claim_C8 ⟨strB "/xfreq",
     [.intV (-3), .floatV 1065353216, .strV (strB "hi")]⟩ (by decide)⟩

end MaxOsc
